import Mathlib

/-!
Verification of the pholcus crawler engine (`src/app/crawler/crawler.go`)
against its specification.

The Go code is shallowly embedded: every pure computation of the engine is
translated to an executable Lean function, stateful interaction with the
collaborators (spider/request source, downloader, pipeline, counters, log)
is made explicit as an oracle of collaborator responses plus a trace of the
calls the engine emits, and Go `int64` arithmetic is modelled on `Int` with
an explicit two's-complement wrap at 64 bits where overflow is reachable.
-/

namespace Pholcus

/-! ## Rate limiter: `Init` pause computation and `sleep`
Source (`crawler.go`):
```
self.pause[0] = cache.Task.Pausetime / 2
if self.pause[0] > 0 {
    self.pause[1] = self.pause[0] * 3
} else {
    self.pause[1] = 1
}
...
sleeptime := self.pause[0] + rand.Int63n(self.pause[1])
```
All quantities are Go `int64`: division truncates toward zero and `+`/`*`
wrap at 64 bits.  `rand.Int63n(n)` returns a uniform value in `[0, n)` and
panics when `n ≤ 0`; we model one draw as an arbitrary `r` subject to
`0 ≤ r ∧ r < n`.
-/

/-- Two's-complement wrap of a mathematical integer into the `int64` range
`[-2^63, 2^63)`; Go `int64` addition and multiplication wrap this way. -/
def wrap64 (x : Int) : Int := (x + 2 ^ 63) % 2 ^ 64 - 2 ^ 63

/-- Go integer division truncates toward zero (`Int` division in Lean is
Euclidean, so negative dividends need the sign adjustment). -/
def half (P : Int) : Int := if 0 ≤ P then P / 2 else -((-P) / 2)

/-- Embedding of the pause initialization in `Init`: from the configured
`Pausetime` value `P` (an `int64`) compute `(pause[0], pause[1])`.
`pause[0] = P / 2` cannot overflow; `pause[0] * 3` can and therefore wraps. -/
def initPause (P : Int) : Int × Int :=
  let base := half P
  (base, if 0 < base then wrap64 (base * 3) else 1)

/-- Embedding of the `sleeptime` computation in `sleep`, given the pause
pair and the value `r` drawn by `rand.Int63n(pause[1])`; the `int64`
addition wraps. -/
def sleeptime (pause : Int × Int) (r : Int) : Int := wrap64 (pause.1 + r)

/-! ## Request processor: `Process`
Source structure (`crawler.go`, `func (self *crawler) Process`):
1. download, giving a context whose `GetError()` may report a transport
   error;
2. on a download error: `DoHistory(req, false)`, `PageFailCount()` iff
   `DoHistory` returned `true`, an error log, then `return` — the parse is
   never invoked;
3. otherwise a `defer`red `recover` barrier is installed and
   `ctx.Parse(ruleName)` runs.  A panic whose payload is the string
   `spider.ACTIVE_STOP` is swallowed with no further action; any other
   panic payload gets the same bookkeeping as a download error (with a
   different log line).  The deferred function always returns normally, so
   no panic is re-raised;
4. on the non-panicking path: `DoHistory(req, true)`, `PageSuccCount()`,
   success log, `CollectData` per pulled item, `CollectFile` per pulled
   file, and finally `PutContext(ctx)`.

The collaborators' behaviour for one request is an oracle (`ReqEnv`); the
processor's observable behaviour is the list of collaborator calls it makes
(`Event`) plus whether a panic escapes it. -/

/-- Payload of a Go panic as seen by the type assertion
`err.(string)` in the recovery barrier: either a string or some non-string
value (for which the assertion yields `""`, never equal to the marker). -/
inductive PanicPayload where
  | str (s : String)
  | nonStr
deriving DecidableEq

/-- Behaviour of `ctx.Parse` for one request: normal return, or a panic
with some payload. -/
inductive ParseOutcome where
  | ok
  | panics (p : PanicPayload)
deriving DecidableEq

/-- Modelled from the spec: the distinguished "active stop" cancellation
marker `spider.ACTIVE_STOP`, a string constant defined in the `app/spider`
package which is not part of `src/`; only its identity matters, never its
text. -/
def ACTIVE_STOP : String := "active stop"

/-- Oracle describing the collaborators' behaviour for one request:
the download error reported by the context (if any), the parse behaviour,
the boolean returned by `DoHistory(req, false)` (whether the retry budget
is exhausted), and the items/files the context yields after parsing. -/
structure ReqEnv where
  downloadErr : Option String
  parseRes : ParseOutcome
  doHistoryFalseRet : Bool
  items : List Nat
  files : List Nat
deriving DecidableEq

/-- One collaborator call made by `Process`, in program order. -/
inductive Event where
  | doHistory (success : Bool)
  | pageFailCount
  | pageSuccCount
  | logDownloadFail
  | logPanicFail
  | logSuccess
  | collectData (item : Nat)
  | collectFile (f : Nat)
  | putContext
deriving DecidableEq

/-- Result of running `Process` on one request: the calls it made, whether
`ctx.Parse` was invoked, and the payload of a panic escaping `Process`
(there is none on any path: the recovery barrier never re-raises). -/
structure ProcResult where
  events : List Event
  parseInvoked : Bool
  panicOut : Option PanicPayload
deriving DecidableEq

/-- Shared failure bookkeeping of `Process`: `DoHistory(req, false)`
followed by `PageFailCount()` exactly when `DoHistory` returned `true`. -/
def failBookkeeping (exhausted : Bool) : List Event :=
  Event.doHistory false :: (if exhausted then [Event.pageFailCount] else [])

/-- Calls made on the fully successful path after `ctx.Parse` returns. -/
def successEvents (env : ReqEnv) : List Event :=
  [Event.doHistory true, Event.pageSuccCount, Event.logSuccess]
    ++ env.items.map Event.collectData
    ++ env.files.map Event.collectFile
    ++ [Event.putContext]

/-- Embedding of `Process`(one request) against the oracle `env`. -/
def Process (env : ReqEnv) : ProcResult :=
  match env.downloadErr with
  | some _ =>
    { events := failBookkeeping env.doHistoryFalseRet ++ [Event.logDownloadFail]
      parseInvoked := false
      panicOut := none }
  | none =>
    match env.parseRes with
    | ParseOutcome.ok =>
      { events := successEvents env
        parseInvoked := true
        panicOut := none }
    | ParseOutcome.panics p =>
      if p = PanicPayload.str ACTIVE_STOP then
        { events := []
          parseInvoked := true
          panicOut := none }
      else
        { events := failBookkeeping env.doHistoryFalseRet ++ [Event.logPanicFail]
          parseInvoked := true
          panicOut := none }

/-- A success was recorded: `DoHistory(req, true)` plus the success-counter
increment. -/
def successRecorded (r : ProcResult) : Prop :=
  Event.doHistory true ∈ r.events ∧ Event.pageSuccCount ∈ r.events

/-- A failure was recorded: `DoHistory(req, false)` (the failure-counter
increment is conditional on retry exhaustion). -/
def failureRecorded (r : ProcResult) : Prop :=
  Event.doHistory false ∈ r.events

/-- The request was swallowed as a cancellation: no history bookkeeping and
no counter increment of either kind. -/
def cancelSwallowed (r : ProcResult) : Prop :=
  (∀ b, Event.doHistory b ∉ r.events)
    ∧ Event.pageSuccCount ∉ r.events ∧ Event.pageFailCount ∉ r.events

/-! ## Dispatch loop: `run`
Source (`crawler.go`, `func (self *crawler) run`):
```
for {
    if req := self.GetOne(); req == nil {
        if self.Spider.CanStop() { break }
    } else {
        self.UseOne()
        go func(req ...) { defer self.FreeOne(); ...; self.Process(req) }(req)
    }
    self.sleep()
}
self.Spider.Defer()
```
Each iteration observes one `(GetOne result, CanStop result)` pair from the
source; the loop is embedded as a fold over a finite list of such
observations.  `exited = false` means the loop was still running after the
recorded observations (it did not terminate within them). -/

/-- One action the dispatch loop performs that is visible to the source:
acquiring a slot (`UseOne`), spawning the processing goroutine for a pulled
request, or the end-of-iteration rate-limiter sleep. -/
inductive DEvent where
  | useOne
  | spawn (reqId : Nat)
  | sleepEvent
deriving DecidableEq

/-- Outcome of running the dispatch loop over a finite list of source
observations: the actions it performed and whether it exited the loop. -/
structure LoopRun where
  events : List DEvent
  exited : Bool
deriving DecidableEq

/-- Embedding of the `run` loop body over a list of source observations,
each a pair (result of `GetOne`, result of `CanStop`; the latter is only
consulted when the former is `none`). -/
def runLoop : List (Option Nat × Bool) → LoopRun
  | [] => { events := [], exited := false }
  | (pull, canStop) :: rest =>
    match pull with
    | none =>
      if canStop then { events := [], exited := true }
      else
        let r := runLoop rest
        { events := DEvent.sleepEvent :: r.events, exited := r.exited }
    | some reqId =>
      let r := runLoop rest
      { events := DEvent.useOne :: DEvent.spawn reqId :: DEvent.sleepEvent :: r.events
        exited := r.exited }

/-- Whether a dispatch-loop action is the spawning of a processing task. -/
def isSpawn : DEvent → Bool
  | DEvent.spawn _ => true
  | _ => false

/-! ## Processing task
The goroutine spawned per admitted request runs
`defer self.FreeOne(); logs.Log.Debug(...); self.Process(req)`: by Go
`defer` semantics `FreeOne` runs after the body finishes, whether the body
returns or panics, and is the task's final action. -/

/-- One call made by the processing goroutine. -/
inductive TaskEvent where
  | debugLog
  | procEvent (e : Event)
  | freeOne
deriving DecidableEq

/-- Embedding of the processing goroutine's body for one request: the debug
log, then every call `Process` makes, then the deferred `FreeOne` — the
deferred call runs regardless of how `Process` finished. -/
def taskEvents (env : ReqEnv) : List TaskEvent :=
  TaskEvent.debugLog :: (Process env).events.map TaskEvent.procEvent
    ++ [TaskEvent.freeOne]

/-! ## Lifecycle: `Run`
Source (`crawler.go`, `func (self *crawler) Run`):
```
self.Pipeline.Start()
c := make(chan bool)
go func() { self.run(); close(c) }()
self.Spider.Start()
<-c
self.Pipeline.Stop()
```
The main thread and the loop goroutine interleave arbitrarily, except that
the goroutine only starts after `Pipeline.Start()` and the receive `<-c`
can only complete after `close(c)`.  We quantify over every admissible
interleaving. -/

/-- One lifecycle-level step of either the main thread or the loop
goroutine. -/
inductive LEvent where
  | pipelineStart
  | spiderStart
  | chanRecv
  | pipelineStop
  | loopIter
  | awaitDrain
  | chanClose
deriving DecidableEq

/-- Occurrence count of an element in a list. -/
def cnt {α : Type} [DecidableEq α] (a : α) : List α → Nat
  | [] => 0
  | b :: l => (if a = b then 1 else 0) + cnt a l

/-- Index of the first occurrence of an element in a list (length of the
list when absent). -/
def idxOf {α : Type} [DecidableEq α] (a : α) : List α → Nat
  | [] => 0
  | b :: l => if a = b then 0 else idxOf a l + 1

/-- `Interleave xs ys zs`: `zs` is an interleaving of the two sequential
threads `xs` and `ys` (each thread's own order is preserved). -/
inductive Interleave {α : Type} : List α → List α → List α → Prop where
  | nil : Interleave [] [] []
  | consLeft (x : α) {xs ys zs : List α} :
      Interleave xs ys zs → Interleave (x :: xs) ys (x :: zs)
  | consRight (y : α) {xs ys zs : List α} :
      Interleave xs ys zs → Interleave xs (y :: ys) (y :: zs)

/-- Steps of the main thread of `Run` after `Pipeline.Start()`. -/
def mainThread : List LEvent :=
  [LEvent.spiderStart, LEvent.chanRecv, LEvent.pipelineStop]

/-- Steps of the loop goroutine: some number of loop iterations, then the
await-drain `Spider.Defer()` returning, then `close(c)`. -/
def loopThread (n : Nat) : List LEvent :=
  List.replicate n LEvent.loopIter ++ [LEvent.awaitDrain, LEvent.chanClose]

/-- Admissible executions of `Run`: `Pipeline.Start()` happens first, the
rest is any interleaving of the main thread with the loop goroutine in
which the channel receive completes only after the channel is closed. -/
def CrawlerRun (n : Nat) (tr : List LEvent) : Prop :=
  ∃ tr', tr = LEvent.pipelineStart :: tr'
    ∧ Interleave mainThread (loopThread n) tr'
    ∧ idxOf LEvent.chanClose tr' < idxOf LEvent.chanRecv tr'

/-! ## Concrete inputs used to instantiate the theorems -/

/-- A request whose fetch reports a transport error. -/
def envDownloadError : ReqEnv :=
  { downloadErr := some "network error", parseRes := ParseOutcome.ok,
    doHistoryFalseRet := true, items := [], files := [] }

/-- A request whose parse raises the active-stop cancellation marker. -/
def envCancel : ReqEnv :=
  { downloadErr := none,
    parseRes := ParseOutcome.panics (PanicPayload.str ACTIVE_STOP),
    doHistoryFalseRet := true, items := [3], files := [4] }

/-- A lifecycle trace of `Run` with no loop iteration: the goroutine runs
to completion, then the main thread starts the spider, receives on the
channel and stops the pipeline. -/
def demoTrace : List LEvent :=
  [LEvent.pipelineStart, LEvent.awaitDrain, LEvent.chanClose,
   LEvent.spiderStart, LEvent.chanRecv, LEvent.pipelineStop]

/-! ## Helper lemmas about `cnt`, `idxOf` and `Interleave` -/

theorem cnt_cons {α : Type} [DecidableEq α] (a b : α) (l : List α) :
    cnt a (b :: l) = (if a = b then 1 else 0) + cnt a l := rfl

theorem idxOf_cons {α : Type} [DecidableEq α] (a b : α) (l : List α) :
    idxOf a (b :: l) = if a = b then 0 else idxOf a l + 1 := rfl

theorem cnt_append {α : Type} [DecidableEq α] (a : α) (l m : List α) :
    cnt a (l ++ m) = cnt a l + cnt a m := by
  induction l with
  | nil => simp [cnt]
  | cons b l ih => rw [List.cons_append, cnt_cons, cnt_cons, ih]; omega

theorem cnt_replicate {α : Type} [DecidableEq α] (a b : α) (n : Nat) :
    cnt a (List.replicate n b) = if a = b then n else 0 := by
  induction n with
  | zero => simp [cnt]
  | succ n ih =>
    rw [List.replicate_succ, cnt_cons, ih]
    split <;> omega

theorem cnt_pos_of_mem {α : Type} [DecidableEq α] {a : α} {l : List α}
    (h : a ∈ l) : 0 < cnt a l := by
  induction l with
  | nil => cases h
  | cons b l ih =>
    rw [cnt_cons]
    rcases List.mem_cons.mp h with h1 | h2
    · rw [if_pos h1]; omega
    · have := ih h2; split <;> omega

theorem idxOf_cons_ne {α : Type} [DecidableEq α] {a c : α} (h : a ≠ c)
    (l : List α) : idxOf a (c :: l) = idxOf a l + 1 := by
  rw [idxOf_cons, if_neg h]

/-- In a list containing exactly one occurrence of `b`, any earlier
occurrence of `a ≠ b` witnessed by the sublist `[a, b]` puts the first
occurrence of `a` strictly before the first occurrence of `b`. -/
theorem idxOf_lt_of_pair_sublist {α : Type} [DecidableEq α] {a b : α}
    (hab : a ≠ b) :
    ∀ {l : List α}, List.Sublist [a, b] l → cnt b l = 1 →
      idxOf a l < idxOf b l := by
  intro l
  induction l with
  | nil => intro h _; nomatch h
  | cons c l ih =>
    intro hsub hb
    by_cases hac : a = c
    · have h0 : idxOf a (c :: l) = 0 := by rw [idxOf_cons, if_pos hac]
      have h1 : idxOf b (c :: l) = idxOf b l + 1 := by
        rw [idxOf_cons, if_neg (by rw [← hac]; exact Ne.symm hab)]
      omega
    · cases hsub with
      | cons₂ h => exact absurd rfl hac
      | cons _ h =>
        by_cases hbc : b = c
        · exfalso
          have hbl : b ∈ l := h.subset (by simp)
          have hpos := cnt_pos_of_mem hbl
          rw [cnt_cons, if_pos hbc] at hb
          omega
        · have ha' := idxOf_cons_ne hac l
          have hb' := idxOf_cons_ne hbc l
          have hbcnt : cnt b l = 1 := by
            rw [cnt_cons, if_neg hbc] at hb; omega
          have := ih h hbcnt
          omega

theorem Interleave.sublist_left {α : Type} {xs ys zs : List α}
    (h : Interleave xs ys zs) : List.Sublist xs zs := by
  induction h with
  | nil => exact List.Sublist.refl []
  | consLeft x _ ih => exact List.Sublist.cons₂ x ih
  | consRight y _ ih => exact List.Sublist.cons y ih

theorem Interleave.sublist_right {α : Type} {xs ys zs : List α}
    (h : Interleave xs ys zs) : List.Sublist ys zs := by
  induction h with
  | nil => exact List.Sublist.refl []
  | consLeft x _ ih => exact List.Sublist.cons x ih
  | consRight y _ ih => exact List.Sublist.cons₂ y ih

theorem interleave_cnt {α : Type} [DecidableEq α] {xs ys zs : List α}
    (h : Interleave xs ys zs) (a : α) :
    cnt a zs = cnt a xs + cnt a ys := by
  induction h with
  | nil => simp [cnt]
  | consLeft x _ ih => rw [cnt_cons, cnt_cons, ih]; omega
  | consRight y _ ih => rw [cnt_cons, cnt_cons, ih]; omega

/-! ## Claims about the request processor -/

/-- C1: for every request that reaches `Process`, exactly one terminal
bookkeeping outcome occurs — success recorded (`DoHistory(req, true)` plus
the success-counter increment), failure recorded (`DoHistory(req, false)`
plus the conditional failure-counter increment), or a cancellation silently
swallowed — never zero outcomes and never two. -/
theorem process_exactly_one_outcome (env : ReqEnv) :
    (successRecorded (Process env) ∧ ¬ failureRecorded (Process env)
        ∧ ¬ cancelSwallowed (Process env))
    ∨ (¬ successRecorded (Process env) ∧ failureRecorded (Process env)
        ∧ ¬ cancelSwallowed (Process env))
    ∨ (¬ successRecorded (Process env) ∧ ¬ failureRecorded (Process env)
        ∧ cancelSwallowed (Process env)) := by
  obtain ⟨derr, pres, dhf, items, files⟩ := env
  cases derr with
  | some e =>
    refine Or.inr (Or.inl ⟨?_, ?_, ?_⟩)
    · intro hs
      have := hs.1
      simp [Process, failBookkeeping] at this
    · simp [Process, failureRecorded, failBookkeeping]
    · intro hc
      exact hc.1 false (by simp [Process, failBookkeeping])
  | none =>
    cases pres with
    | ok =>
      refine Or.inl ⟨⟨?_, ?_⟩, ?_, ?_⟩
      · simp [Process, successEvents]
      · simp [Process, successEvents]
      · intro hf
        simp [Process, successEvents, failureRecorded] at hf
      · intro hc
        exact hc.1 true (by simp [Process, successEvents])
    | panics p =>
      by_cases hp : p = PanicPayload.str ACTIVE_STOP
      · refine Or.inr (Or.inr ⟨?_, ?_, ?_⟩)
        · intro hs
          have := hs.1
          simp [Process, hp] at this
        · intro hf
          simp [Process, hp, failureRecorded] at hf
        · refine ⟨fun b => ?_, ?_, ?_⟩ <;> simp [Process, hp]
      · refine Or.inr (Or.inl ⟨?_, ?_, ?_⟩)
        · intro hs
          have := hs.1
          simp [Process, hp, failBookkeeping] at this
        · simp [Process, hp, failureRecorded, failBookkeeping]
        · intro hc
          exact hc.1 false (by simp [Process, hp, failBookkeeping])

/-- C5: when the fetch step reports an error, `Process` records a failed
attempt (`DoHistory(req, false)`), increments the failure counter iff the
source signals retry exhaustion, logs the failure, and stops: the parse is
never invoked and nothing is forwarded to the pipeline for that request. -/
theorem fetch_error_terminal (env : ReqEnv) (e : String)
    (h : env.downloadErr = some e) :
    failureRecorded (Process env)
    ∧ (Event.pageFailCount ∈ (Process env).events
        ↔ env.doHistoryFalseRet = true)
    ∧ Event.logDownloadFail ∈ (Process env).events
    ∧ (Process env).parseInvoked = false
    ∧ (∀ i, Event.collectData i ∉ (Process env).events)
    ∧ (∀ f, Event.collectFile f ∉ (Process env).events)
    ∧ Event.doHistory true ∉ (Process env).events
    ∧ Event.pageSuccCount ∉ (Process env).events := by
  cases dhf : env.doHistoryFalseRet <;>
    simp [Process, h, dhf, failureRecorded, failBookkeeping]

/-- Witness for C5 at a concrete request environment with a retry-exhausted
fetch failure. -/
theorem fetch_error_terminal_witness :
    envDownloadError.downloadErr = some "network error"
    ∧ (failureRecorded (Process envDownloadError)
        ∧ (Event.pageFailCount ∈ (Process envDownloadError).events
            ↔ envDownloadError.doHistoryFalseRet = true)
        ∧ Event.logDownloadFail ∈ (Process envDownloadError).events
        ∧ (Process envDownloadError).parseInvoked = false
        ∧ (∀ i, Event.collectData i ∉ (Process envDownloadError).events)
        ∧ (∀ f, Event.collectFile f ∉ (Process envDownloadError).events)
        ∧ Event.doHistory true ∉ (Process envDownloadError).events
        ∧ Event.pageSuccCount ∉ (Process envDownloadError).events) :=
  ⟨rfl, fetch_error_terminal envDownloadError "network error" rfl⟩

/-- C6: a parse panic whose payload is the distinguished active-stop
cancellation marker is swallowed silently: no events at all (no counters,
no history bookkeeping, no error log) and no re-raised panic, even though
the parse was invoked. -/
theorem active_stop_swallowed (env : ReqEnv)
    (h1 : env.downloadErr = none)
    (h2 : env.parseRes = ParseOutcome.panics (PanicPayload.str ACTIVE_STOP)) :
    (Process env).events = [] ∧ (Process env).panicOut = none
      ∧ (Process env).parseInvoked = true := by
  simp [Process, h1, h2]

/-- Witness for C6 at a concrete request environment. -/
theorem active_stop_swallowed_witness :
    envCancel.downloadErr = none
    ∧ envCancel.parseRes
        = ParseOutcome.panics (PanicPayload.str ACTIVE_STOP)
    ∧ ((Process envCancel).events = [] ∧ (Process envCancel).panicOut = none
        ∧ (Process envCancel).parseInvoked = true) :=
  ⟨rfl, rfl, active_stop_swallowed envCancel rfl rfl⟩

/-- C7: `Process` never propagates a panic back to the dispatch loop:
on every oracle — transport failure, processing fault with any payload,
cancellation, success — the recovery barrier fully recovers and `Process`
returns normally. -/
theorem process_no_panic_propagation (env : ReqEnv) :
    (Process env).panicOut = none := by
  obtain ⟨derr, pres, dhf, items, files⟩ := env
  cases derr with
  | some e => rfl
  | none =>
    cases pres with
    | ok => rfl
    | panics p =>
      by_cases hp : p = PanicPayload.str ACTIVE_STOP <;> simp [Process, hp]

/-- C9 as stated is false: on the download-error path (and on the panic
paths) `Process` returns without handing the context back to the pool;
`PutContext` is only reached on the fully successful path.  Concrete
counterexample: a request whose fetch reports an error. -/
theorem context_pool_cex :
    Event.putContext ∉ (Process envDownloadError).events := by
  decide

/-- C9, amended: the context is returned to the shared reuse pool exactly
when the request succeeds end-to-end — the fetch reported no error and the
parse returned normally; on the fetch-error and parse-panic paths the
context is not recycled. -/
theorem context_pool_iff_success (env : ReqEnv) :
    Event.putContext ∈ (Process env).events
      ↔ env.downloadErr = none ∧ env.parseRes = ParseOutcome.ok := by
  obtain ⟨derr, pres, dhf, items, files⟩ := env
  cases derr with
  | some e => simp [Process, failBookkeeping]
  | none =>
    cases pres with
    | ok => simp [Process, successEvents]
    | panics p =>
      by_cases hp : p = PanicPayload.str ACTIVE_STOP <;>
        simp [Process, hp, failBookkeeping]

/-! ## Claims about the rate limiter -/

/-- C2 as stated is false: the configured pause value is a Go `int64`, and
for `P = 2^62 + 2` the draw `r = pause[1] - 1` is admissible yet the
`int64` addition `pause[0] + r` wraps to a negative value, so the sampled
delay is below `base`.  (`P` is a valid non-negative `int64` and `r` lies
in `[0, pause[1])`.) -/
theorem sleep_delay_range_cex :
    (0 : Int) ≤ 4611686018427387906
    ∧ (0 : Int) ≤ 6917529027641081858
    ∧ (6917529027641081858 : Int) < (initPause 4611686018427387906).2
    ∧ sleeptime (initPause 4611686018427387906) 6917529027641081858
        < (initPause 4611686018427387906).1 := by
  refine ⟨by decide, by decide, by decide, by decide⟩

/-- C2, amended: for every configured pause value `0 ≤ P ≤ 2^62 + 1`
(so that no `int64` operation of the rate limiter overflows),
initialization sets `base = P / 2` and `spread = base * 3` if `base > 0`
else `1`, and every delay sampled by the rate limiter lies in the half-open
interval `[base, base + spread)`. -/
theorem sleep_delay_range_bounded (P : Int) (h0 : 0 ≤ P)
    (hP : P ≤ 4611686018427387905) :
    (initPause P).1 = P / 2
    ∧ (initPause P).2 = (if 0 < P / 2 then 3 * (P / 2) else 1)
    ∧ ∀ r : Int, 0 ≤ r → r < (initPause P).2 →
        (initPause P).1 ≤ sleeptime (initPause P) r
        ∧ sleeptime (initPause P) r < (initPause P).1 + (initPause P).2 := by
  have hfst : (initPause P).1 = half P := rfl
  have hsnd : (initPause P).2
      = if 0 < half P then wrap64 (half P * 3) else 1 := rfl
  have hhalf : half P = P / 2 := by unfold half; rw [if_pos h0]
  have hs : ∀ r : Int, sleeptime (initPause P) r = wrap64 (P / 2 + r) := by
    intro r; unfold sleeptime; rw [hfst, hhalf]
  by_cases hpos : 0 < P / 2
  · have hle : P / 2 ≤ 2305843009213693952 := by omega
    have hw : wrap64 (P / 2 * 3) = 3 * (P / 2) := by unfold wrap64; omega
    have hsnd' : (initPause P).2 = 3 * (P / 2) := by
      rw [hsnd, hhalf, if_pos hpos, hw]
    refine ⟨by rw [hfst, hhalf], by rw [hsnd', if_pos hpos], ?_⟩
    intro r hr0 hr1
    rw [hsnd'] at hr1
    rw [hs, hfst, hhalf, hsnd']
    unfold wrap64
    constructor <;> omega
  · have hsnd' : (initPause P).2 = 1 := by rw [hsnd, hhalf, if_neg hpos]
    refine ⟨by rw [hfst, hhalf], by rw [hsnd', if_neg hpos], ?_⟩
    intro r hr0 hr1
    rw [hsnd'] at hr1
    rw [hs, hfst, hhalf, hsnd']
    unfold wrap64
    constructor <;> omega

/-- Witness for the amended C2 at the spec's own example `P = 1000`
(`base = 500`, `spread = 1500`). -/
theorem sleep_delay_range_bounded_witness :
    ((0 : Int) ≤ 1000 ∧ (1000 : Int) ≤ 4611686018427387905)
    ∧ ((initPause 1000).1 = 1000 / 2
        ∧ (initPause 1000).2 = (if 0 < (1000 : Int) / 2
            then 3 * ((1000 : Int) / 2) else 1)
        ∧ ∀ r : Int, 0 ≤ r → r < (initPause 1000).2 →
            (initPause 1000).1 ≤ sleeptime (initPause 1000) r
            ∧ sleeptime (initPause 1000) r
                < (initPause 1000).1 + (initPause 1000).2) :=
  ⟨⟨by decide, by decide⟩,
    sleep_delay_range_bounded 1000 (by decide) (by decide)⟩

/-- C10 as stated is false: for the valid `int64` pause value
`P = 6148914691236517206` we get `pause[0] = 3074457345618258603 > 0` and
the `int64` product `pause[0] * 3` wraps to a negative value, so the stored
spread is below `1` (and `rand.Int63n` would panic on it). -/
theorem spread_positive_cex :
    (initPause 6148914691236517206).2 < 1 := by decide

/-- C10, amended: for every configured pause value
`P ≤ 6148914691236517205` (so that `pause[0] * 3` does not overflow
`int64`; this includes every negative value), the stored spread is at least
`1`, hence the random draw is never invoked on an empty range. -/
theorem spread_positive_bounded (P : Int)
    (h : P ≤ 6148914691236517205) : 1 ≤ (initPause P).2 := by
  have hsnd : (initPause P).2
      = if 0 < half P then wrap64 (half P * 3) else 1 := rfl
  by_cases h0 : 0 ≤ P
  · have hb : half P = P / 2 := by unfold half; rw [if_pos h0]
    rw [hsnd, hb]
    by_cases hpos : 0 < P / 2
    · rw [if_pos hpos]
      have hub : P / 2 ≤ 3074457345618258602 := by omega
      generalize hg : P / 2 = d at hpos hub
      unfold wrap64
      rw [Int.emod_eq_of_lt (by omega) (by omega)]
      omega
    · rw [if_neg hpos]
  · have hb : half P = -((-P) / 2) := by unfold half; rw [if_neg h0]
    have hnp : half P ≤ 0 := by rw [hb]; omega
    rw [hsnd, if_neg (by omega)]

/-- Witness for the amended C10 at the concrete pause value `P = 1000`. -/
theorem spread_positive_bounded_witness :
    (1000 : Int) ≤ 6148914691236517205 ∧ 1 ≤ (initPause 1000).2 :=
  ⟨by decide, spread_positive_bounded 1000 (by decide)⟩

/-! ## Claims about the dispatch loop -/

/-- C3: the dispatch loop exits exactly when some observed pull comes back
empty with `CanStop()` answering true; as long as `CanStop()` is false an
empty pull (even repeated) never terminates the loop — the iteration falls
through to the delay and the loop re-polls. -/
theorem dispatch_loop_exit_iff (oracle : List (Option Nat × Bool)) :
    (runLoop oracle).exited = true
      ↔ ∃ s ∈ oracle, s.1 = none ∧ s.2 = true := by
  induction oracle with
  | nil => simp [runLoop]
  | cons s rest ih =>
    obtain ⟨pull, canStop⟩ := s
    cases pull with
    | none =>
      cases canStop with
      | true => simp [runLoop]
      | false => simp [runLoop, ih]
    | some reqId => simp [runLoop, ih]

/-- C4: the dispatch loop performs exactly one slot acquire (`UseOne`) per
spawned processing task, and the processing task's guaranteed final action
on every path — success, failure and cancellation alike — is its single
slot release (`FreeOne`, installed by `defer`). -/
theorem slot_acquire_release_paired (oracle : List (Option Nat × Bool))
    (env : ReqEnv) :
    cnt DEvent.useOne (runLoop oracle).events
        = ((runLoop oracle).events.filter isSpawn).length
    ∧ (taskEvents env).getLast? = some TaskEvent.freeOne
    ∧ cnt TaskEvent.freeOne (taskEvents env) = 1 := by
  refine ⟨?_, ?_, ?_⟩
  · induction oracle with
    | nil => simp [runLoop, cnt]
    | cons s rest ih =>
      obtain ⟨pull, canStop⟩ := s
      cases pull with
      | none =>
        cases canStop with
        | true => simp [runLoop, cnt]
        | false => simp [runLoop, cnt_cons, isSpawn, ih]
      | some reqId => simp [runLoop, cnt_cons, isSpawn, ih]; omega
  · show (TaskEvent.debugLog :: ((Process env).events.map TaskEvent.procEvent
        ++ [TaskEvent.freeOne])).getLast? = some TaskEvent.freeOne
    rw [← List.cons_append, List.getLast?_concat]
  · have hmap : ∀ l : List Event,
        cnt TaskEvent.freeOne (l.map TaskEvent.procEvent) = 0 := by
      intro l
      induction l with
      | nil => rfl
      | cons e l ihl => rw [List.map_cons, cnt_cons, ihl, if_neg (by simp)]
    show cnt TaskEvent.freeOne
        (TaskEvent.debugLog :: ((Process env).events.map TaskEvent.procEvent
          ++ [TaskEvent.freeOne])) = 1
    rw [cnt_cons, cnt_append, hmap, if_neg (by simp)]
    rfl

/-! ## Claim about the lifecycle -/

/-- C8: in every admissible execution of `Run`, the pipeline is started
first, the spider is started before the wait on the loop channel, the wait
completes before the pipeline is stopped, and the await-drain return of the
dispatch-loop goroutine precedes the pipeline stop — so the output sink is
shut down strictly after the loop has exited and drained. -/
theorem run_stop_after_drain (n : Nat) (tr : List LEvent)
    (h : CrawlerRun n tr) :
    tr.head? = some LEvent.pipelineStart
    ∧ idxOf LEvent.spiderStart tr < idxOf LEvent.chanRecv tr
    ∧ idxOf LEvent.chanRecv tr < idxOf LEvent.pipelineStop tr
    ∧ idxOf LEvent.awaitDrain tr < idxOf LEvent.pipelineStop tr := by
  obtain ⟨tr', rfl, hil, hchan⟩ := h
  have hcntRecv : cnt LEvent.chanRecv tr' = 1 := by
    rw [interleave_cnt hil]
    unfold loopThread
    rw [cnt_append, cnt_replicate]
    simp [mainThread, cnt]
  have hcntStop : cnt LEvent.pipelineStop tr' = 1 := by
    rw [interleave_cnt hil]
    unfold loopThread
    rw [cnt_append, cnt_replicate]
    simp [mainThread, cnt]
  have hcntClose : cnt LEvent.chanClose tr' = 1 := by
    rw [interleave_cnt hil]
    unfold loopThread
    rw [cnt_append, cnt_replicate]
    simp [mainThread, cnt]
  have hmainSub := hil.sublist_left
  have hloopSub := hil.sublist_right
  have hSR : idxOf LEvent.spiderStart tr' < idxOf LEvent.chanRecv tr' := by
    refine idxOf_lt_of_pair_sublist (by simp) ?_ hcntRecv
    exact List.Sublist.trans
      (List.Sublist.cons₂ _ (List.Sublist.cons₂ _ (List.nil_sublist _)))
      hmainSub
  have hRS : idxOf LEvent.chanRecv tr' < idxOf LEvent.pipelineStop tr' := by
    refine idxOf_lt_of_pair_sublist (by simp) ?_ hcntStop
    exact List.Sublist.trans (List.Sublist.cons _ (List.Sublist.refl _))
      hmainSub
  have hDC : idxOf LEvent.awaitDrain tr' < idxOf LEvent.chanClose tr' := by
    refine idxOf_lt_of_pair_sublist (by simp) ?_ hcntClose
    exact List.Sublist.trans
      (List.sublist_append_right (List.replicate n LEvent.loopIter) _)
      hloopSub
  have hshift : ∀ a : LEvent, a ≠ LEvent.pipelineStart →
      idxOf a (LEvent.pipelineStart :: tr') = idxOf a tr' + 1 :=
    fun a ha => idxOf_cons_ne ha tr'
  refine ⟨rfl, ?_, ?_, ?_⟩
  · rw [hshift _ (by simp), hshift _ (by simp)]; omega
  · rw [hshift _ (by simp), hshift _ (by simp)]; omega
  · rw [hshift _ (by simp), hshift _ (by simp)]; omega

/-- Witness for C8: a concrete admissible execution of `Run` with zero
loop iterations in which the goroutine finishes before the spider start is
scheduled. -/
theorem run_stop_after_drain_witness :
    CrawlerRun 0 demoTrace
    ∧ (demoTrace.head? = some LEvent.pipelineStart
        ∧ idxOf LEvent.spiderStart demoTrace < idxOf LEvent.chanRecv demoTrace
        ∧ idxOf LEvent.chanRecv demoTrace < idxOf LEvent.pipelineStop demoTrace
        ∧ idxOf LEvent.awaitDrain demoTrace
            < idxOf LEvent.pipelineStop demoTrace) :=
  have hcr : CrawlerRun 0 demoTrace :=
    ⟨[LEvent.awaitDrain, LEvent.chanClose, LEvent.spiderStart,
      LEvent.chanRecv, LEvent.pipelineStop],
     rfl,
     Interleave.consRight _ (Interleave.consRight _ (Interleave.consLeft _
       (Interleave.consLeft _ (Interleave.consLeft _ Interleave.nil)))),
     by decide⟩
  ⟨hcr, run_stop_after_drain 0 demoTrace hcr⟩

end Pholcus
